import Mathlib

/-!
Verification development for the object property-access layer of the `neon`
repository (`src/object/mod.rs`). The file shallowly embeds the two backend
variants (`legacy-runtime` and `napi-runtime`) of the `PropertyKey` and
`Object` traits. The native call surface (`neon_runtime::object::*`) is an
external collaborator: it is modelled as an abstract record of entry points,
each taking the current out-slot contents and an engine state and returning
the new state, the (possibly rewritten) out-slot contents, and the raw ABI
success boolean. The UTF-8 lowering step for text keys is likewise abstract.
-/

set_option autoImplicit false

namespace Neon

/-- An opaque native value pointer (`raw::Local`). -/
abbrev RawLocal : Type := Nat

/-- The raw napi environment token (`raw::Env`, obtained via `cx.env().to_raw()`). -/
abbrev RawEnv : Type := Nat

/-- The pending-exception sentinel (`result::Throw`): a payload-free marker. -/
inductive Throw : Type where
  | mk : Throw
deriving DecidableEq, Repr

/-- `NeonResult<T>` = `Result<T, Throw>`. -/
abbrev NeonResult (α : Type) : Type := Except Throw α

/-- The result of one native entry point: the engine state after the call, the
final contents of the caller-provided out-parameter, and the raw ABI success
boolean. When `ok = false` the `out` field is garbage the caller must not use. -/
structure NativeOut (σ : Type) (α : Type) : Type where
  state : σ
  out : α
  ok : Bool
deriving DecidableEq, Repr

/-- A lowered UTF-8 small buffer: `(pointer, length)` as produced by
`Utf8::from(s).into_small_unwrap().lower()` (external collaborator). -/
abbrev Lowered : Type := Nat × Nat

/-- The raw bitmask wrapper returned by the legacy attribute query
(`JsPropertyAttributes { attribs }`). -/
structure JsPropertyAttributes : Type where
  attribs : Nat
deriving DecidableEq, Repr

/-- The three built-in property-key types: `u32`, `Handle<'a, K>` (identified
with the raw value `self.to_raw()` it lowers to), and `&str`. -/
inductive PropertyKey : Type where
  | index : Nat → PropertyKey
  | handle : RawLocal → PropertyKey
  | text : String → PropertyKey
deriving DecidableEq, Repr

namespace Legacy

/-- The legacy-runtime execution context: the `Object` and `PropertyKey`
operations of this backend receive it but never read it (`_: &mut C`), so it
is an opaque token. -/
abbrev Ctx : Type := Nat

/-- The legacy-runtime native call surface `neon_runtime::object` consumed by
`src/object/mod.rs`: one abstract entry point per foreign function, each
threading an engine state `σ`. None of the legacy entry points takes an
environment token. -/
structure NeonRuntime (σ : Type) : Type where
  get_index : RawLocal → RawLocal → Nat → σ → NativeOut σ RawLocal
  set_index : Bool → RawLocal → Nat → RawLocal → σ → NativeOut σ Bool
  get : RawLocal → RawLocal → RawLocal → σ → NativeOut σ RawLocal
  set : Bool → RawLocal → RawLocal → RawLocal → σ → NativeOut σ Bool
  get_string : RawLocal → RawLocal → Lowered → σ → NativeOut σ RawLocal
  set_string : Bool → RawLocal → Lowered → RawLocal → σ → NativeOut σ Bool
  get_property_names : RawLocal → RawLocal → σ → NativeOut σ RawLocal
  get_own_property_names : RawLocal → RawLocal → σ → NativeOut σ RawLocal
  get_property_attributes : RawLocal → RawLocal → σ → Nat

variable {σ : Type}

/-- Legacy `PropertyKey::get_from`: dispatch of the three impls
(`u32`, `Handle`, `&str`). The `&str` impl first lowers the text. -/
def PropertyKey.get_from (rt : NeonRuntime σ) (lower : String → Lowered)
    (k : PropertyKey) (out : RawLocal) (obj : RawLocal) (st : σ) :
    NativeOut σ RawLocal :=
  match k with
  | .index i => rt.get_index out obj i st
  | .handle h => rt.get out obj h st
  | .text s => rt.get_string out obj (lower s) st

/-- Legacy `PropertyKey::set_from`: dispatch of the three impls. -/
def PropertyKey.set_from (rt : NeonRuntime σ) (lower : String → Lowered)
    (k : PropertyKey) (out : Bool) (obj : RawLocal) (val : RawLocal) (st : σ) :
    NativeOut σ Bool :=
  match k with
  | .index i => rt.set_index out obj i val st
  | .handle h => rt.set out obj h val st
  | .text s => rt.set_string out obj (lower s) val st

end Legacy

/-- Modelled from the spec: the shared out-parameter construction helper
`build` (defined in `types`, outside `src/`): it allocates an empty out-slot
(initial contents `init`), invokes the native call against it, and maps a
`false` ABI result to `Err(Throw)` and a `true` result to `Ok` of the filled
slot. -/
def build {σ α : Type} (st : σ) (init : α) (f : α → σ → NativeOut σ α) :
    σ × NeonResult α :=
  let r := f init st
  (r.state, if r.ok then Except.ok r.out else Except.error Throw.mk)

namespace Legacy

variable {σ : Type}

/-- Legacy `Object::get`: `build(|out| key.get_from(out, self.to_raw()))`.
The context parameter is received and ignored. The empty `raw::Local`
out-slot is modelled as the null pointer `0`. -/
def Object.get (rt : NeonRuntime σ) (lower : String → Lowered) (_cx : Ctx)
    (self : RawLocal) (key : PropertyKey) (st : σ) : σ × NeonResult RawLocal :=
  build st 0 (fun out s => PropertyKey.get_from rt lower key out self s)

/-- Legacy `Object::get_property_attributes`: wraps the raw bitmask from the
native call in `JsPropertyAttributes`; no failure channel exists. -/
def Object.get_property_attributes (rt : NeonRuntime σ) (_cx : Ctx)
    (self : RawLocal) (key : RawLocal) (st : σ) : JsPropertyAttributes :=
  { attribs := rt.get_property_attributes self key st }

/-- Legacy `Object::get_property_names`. -/
def Object.get_property_names (rt : NeonRuntime σ) (_cx : Ctx)
    (self : RawLocal) (st : σ) : σ × NeonResult RawLocal :=
  build st 0 (fun out s => rt.get_property_names out self s)

/-- Legacy `Object::get_own_property_names`. -/
def Object.get_own_property_names (rt : NeonRuntime σ) (_cx : Ctx)
    (self : RawLocal) (st : σ) : σ × NeonResult RawLocal :=
  build st 0 (fun out s => rt.get_own_property_names out self s)

/-- Legacy `Object::set`: `let mut result = false; if key.set_from(&mut
result, self, val) { Ok(result) } else { Err(Throw) }`. -/
def Object.set (rt : NeonRuntime σ) (lower : String → Lowered) (_cx : Ctx)
    (self : RawLocal) (key : PropertyKey) (val : RawLocal) (st : σ) :
    σ × NeonResult Bool :=
  let r := PropertyKey.set_from rt lower key false self val st
  if r.ok then (r.state, Except.ok r.out) else (r.state, Except.error Throw.mk)

end Legacy

namespace Napi

/-- The napi-runtime execution context: exposes the raw environment token via
`cx.env().to_raw()`. -/
structure Ctx : Type where
  env : RawEnv
deriving DecidableEq, Repr

/-- The napi-runtime native call surface consumed by `src/object/mod.rs`.
Only `set_string` takes the environment token; the legacy-only entry points
(`get_property_names`, `get_property_attributes`) are absent. -/
structure NeonRuntime (σ : Type) : Type where
  get_index : RawLocal → RawLocal → Nat → σ → NativeOut σ RawLocal
  set_index : Bool → RawLocal → Nat → RawLocal → σ → NativeOut σ Bool
  get : RawLocal → RawLocal → RawLocal → σ → NativeOut σ RawLocal
  set : Bool → RawLocal → RawLocal → RawLocal → σ → NativeOut σ Bool
  get_string : RawLocal → RawLocal → Lowered → σ → NativeOut σ RawLocal
  set_string : RawEnv → Bool → RawLocal → Lowered → RawLocal → σ → NativeOut σ Bool
  get_own_property_names : RawLocal → RawLocal → σ → NativeOut σ RawLocal

variable {σ : Type}

/-- Napi `PropertyKey::get_from`: every impl receives the context but none
reads it (`_cx` in all three impls); the `&str` impl lowers the text first. -/
def PropertyKey.get_from (rt : NeonRuntime σ) (lower : String → Lowered)
    (k : PropertyKey) (_cx : Ctx) (out : RawLocal) (obj : RawLocal) (st : σ) :
    NativeOut σ RawLocal :=
  match k with
  | .index i => rt.get_index out obj i st
  | .handle h => rt.get out obj h st
  | .text s => rt.get_string out obj (lower s) st

/-- Napi `PropertyKey::set_from`: the `u32` and `Handle` impls ignore the
context (`_cx`); the `&str` impl extracts `cx.env().to_raw()` and passes it
to `neon_runtime::object::set_string`. -/
def PropertyKey.set_from (rt : NeonRuntime σ) (lower : String → Lowered)
    (k : PropertyKey) (cx : Ctx) (out : Bool) (obj : RawLocal)
    (val : RawLocal) (st : σ) : NativeOut σ Bool :=
  match k with
  | .index i => rt.set_index out obj i val st
  | .handle h => rt.set out obj h val st
  | .text s => rt.set_string cx.env out obj (lower s) val st

/-- Napi `Object::get`: `build(|out| key.get_from(cx, out, self.to_raw()))`. -/
def Object.get (rt : NeonRuntime σ) (lower : String → Lowered) (cx : Ctx)
    (self : RawLocal) (key : PropertyKey) (st : σ) : σ × NeonResult RawLocal :=
  build st 0 (fun out s => PropertyKey.get_from rt lower key cx out self s)

/-- Napi `Object::get_own_property_names`: the context is received and
ignored; the native call takes no environment token. -/
def Object.get_own_property_names (rt : NeonRuntime σ) (_cx : Ctx)
    (self : RawLocal) (st : σ) : σ × NeonResult RawLocal :=
  build st 0 (fun out s => rt.get_own_property_names out self s)

/-- Napi `Object::set`: same shape as the legacy one, but `set_from` receives
the context. -/
def Object.set (rt : NeonRuntime σ) (lower : String → Lowered) (cx : Ctx)
    (self : RawLocal) (key : PropertyKey) (val : RawLocal) (st : σ) :
    σ × NeonResult Bool :=
  let r := PropertyKey.set_from rt lower key cx false self val st
  if r.ok then (r.state, Except.ok r.out) else (r.state, Except.error Throw.mk)

end Napi

namespace Model

/-!
A reference semantics for the native call surface, used to settle the
spec's engine-behaviour properties (set/get round trip, own-names ⊆
all-names). The native entry points themselves (`neon_runtime::object::*`)
live outside `src/`, so this semantics is modelled from the spec's
description of them.
-/

/-- A property key as seen by the model engine: an index, a value-keyed key
(by raw id), or a lowered text buffer. -/
inductive MKey : Type where
  | idx : Nat → MKey
  | objKey : RawLocal → MKey
  | str : Lowered → MKey
deriving DecidableEq, Repr

/-- One property slot: its value and its writable/enumerable/configurable
flags. -/
structure PropSlot : Type where
  value : RawLocal
  writable : Bool
  enumerable : Bool
  configurable : Bool
deriving DecidableEq, Repr

/-- One engine object: its own properties (in insertion order) and an
optional prototype link. -/
structure ObjRecord : Type where
  props : List (MKey × PropSlot)
  proto : Option RawLocal
deriving DecidableEq, Repr

/-- The model engine state: the object heap, the arrays allocated by the
enumeration calls (handle to list of keys), and a fresh-handle counter. -/
structure EngineState : Type where
  heap : List (RawLocal × ObjRecord)
  arrays : List (RawLocal × List MKey)
  next : RawLocal
deriving DecidableEq, Repr

/-- First-match association-list lookup. -/
def lookupA {β : Type} : List (Nat × β) → Nat → Option β
  | [], _ => none
  | (k, v) :: rest, x => if k = x then some v else lookupA rest x

/-- Replace the binding of a key in an association list (insert at the end if
absent). -/
def updateA {β : Type} : List (Nat × β) → Nat → β → List (Nat × β)
  | [], k, v => [(k, v)]
  | (k', v') :: rest, k, v =>
      if k' = k then (k, v) :: rest else (k', v') :: updateA rest k v

/-- First-match lookup in a property list. -/
def lookupP : List (MKey × PropSlot) → MKey → Option PropSlot
  | [], _ => none
  | (k, s) :: rest, x => if k = x then some s else lookupP rest x

/-- Replace a property slot (insert at the end if absent). -/
def setP : List (MKey × PropSlot) → MKey → PropSlot → List (MKey × PropSlot)
  | [], k, s => [(k, s)]
  | (k', s') :: rest, k, s =>
      if k' = k then (k, s) :: rest else (k', s') :: setP rest k s

/-- Own-property lookup followed by the prototype chain, bounded by fuel. -/
def protoLookup : Nat → EngineState → RawLocal → MKey → Option PropSlot
  | 0, _, _, _ => none
  | n + 1, st, obj, k =>
    match lookupA st.heap obj with
    | none => none
    | some rec =>
      match lookupP rec.props k with
      | some slot => some slot
      | none =>
        match rec.proto with
        | none => none
        | some p => protoLookup n st p k

/-- Modelled from the spec: a native get call. The engine resolves the key
along the prototype chain; a missing property yields the `undefined` value
(raw id `0`) with ABI success; only a dead object reference fails (leaving
the out-slot untouched). No getter traps exist in this model, matching the
spec's "no getter/setter side effects interfere" precondition. -/
def modelGet (out0 : RawLocal) (obj : RawLocal) (k : MKey) (st : EngineState) :
    NativeOut EngineState RawLocal :=
  match lookupA st.heap obj with
  | none => ⟨st, out0, false⟩
  | some _ =>
    match protoLookup st.heap.length st obj k with
    | some slot => ⟨st, slot.value, true⟩
    | none => ⟨st, 0, true⟩

/-- Modelled from the spec: a native set call in non-strict semantics. A
writable own property is updated (out-flag `true`); a non-writable own
property silently refuses the write (out-flag `false`, still ABI success);
a missing own property is created writable/enumerable/configurable; a dead
object reference is the only ABI failure, leaving the out-slot untouched. -/
def modelSet (out0 : Bool) (obj : RawLocal) (k : MKey) (v : RawLocal)
    (st : EngineState) : NativeOut EngineState Bool :=
  match lookupA st.heap obj with
  | none => ⟨st, out0, false⟩
  | some rec =>
    match lookupP rec.props k with
    | some slot =>
      if slot.writable then
        let rec' : ObjRecord :=
          { rec with props := setP rec.props k { slot with value := v } }
        ⟨{ st with heap := updateA st.heap obj rec' }, true, true⟩
      else
        ⟨st, false, true⟩
    | none =>
      let rec' : ObjRecord :=
        { rec with props := setP rec.props k ⟨v, true, true, true⟩ }
      ⟨{ st with heap := updateA st.heap obj rec' }, true, true⟩

/-- The enumerable own-property keys of one object, in insertion order. -/
def ownEnumNames (rec : ObjRecord) : List MKey :=
  (rec.props.filter (fun p => p.2.enumerable)).map (fun p => p.1)

/-- The enumerable keys of an object and its prototype chain, own keys first,
bounded by fuel. -/
def allEnumNames : Nat → EngineState → RawLocal → List MKey
  | 0, _, _ => []
  | n + 1, st, obj =>
    match lookupA st.heap obj with
    | none => []
    | some rec =>
      ownEnumNames rec ++
        (match rec.proto with
         | none => []
         | some p => allEnumNames n st p)

/-- Modelled from the spec: the native own-property enumeration. It allocates
a fresh array holding the object's enumerable own keys. -/
def modelOwnNames (out0 : RawLocal) (obj : RawLocal) (st : EngineState) :
    NativeOut EngineState RawLocal :=
  match lookupA st.heap obj with
  | none => ⟨st, out0, false⟩
  | some rec =>
    ⟨{ st with arrays := (st.next, ownEnumNames rec) :: st.arrays,
               next := st.next + 1 },
     st.next, true⟩

/-- Modelled from the spec: the native all-enumerable-property enumeration
(own and inherited, own first, native order preserved). -/
def modelAllNames (out0 : RawLocal) (obj : RawLocal) (st : EngineState) :
    NativeOut EngineState RawLocal :=
  match lookupA st.heap obj with
  | none => ⟨st, out0, false⟩
  | some _ =>
    ⟨{ st with arrays := (st.next, allEnumNames st.heap.length st obj) :: st.arrays,
               next := st.next + 1 },
     st.next, true⟩

/-- Modelled from the spec: the infallible native attribute query, encoding
the three flags of the resolved own slot as a bitmask (absent property: 0). -/
def modelAttrs (obj : RawLocal) (key : MKey) (st : EngineState) : Nat :=
  match lookupA st.heap obj with
  | none => 0
  | some rec =>
    match lookupP rec.props key with
    | none => 0
    | some slot =>
      (if slot.writable then 0 else 1) + (if slot.enumerable then 0 else 2) +
        (if slot.configurable then 0 else 4)

/-- The legacy native call surface instantiated with the model engine. -/
def legacyRuntime : Legacy.NeonRuntime EngineState where
  get_index out obj i := modelGet out obj (.idx i)
  set_index out obj i v := modelSet out obj (.idx i) v
  get out obj k := modelGet out obj (.objKey k)
  set out obj k v := modelSet out obj (.objKey k) v
  get_string out obj pl := modelGet out obj (.str pl)
  set_string out obj pl v := modelSet out obj (.str pl) v
  get_property_names out obj := modelAllNames out obj
  get_own_property_names out obj := modelOwnNames out obj
  get_property_attributes obj k := modelAttrs obj (.objKey k)

/-- The napi native call surface instantiated with the model engine; the
environment token does not influence the engine semantics. -/
def napiRuntime : Napi.NeonRuntime EngineState where
  get_index out obj i := modelGet out obj (.idx i)
  set_index out obj i v := modelSet out obj (.idx i) v
  get out obj k := modelGet out obj (.objKey k)
  set out obj k v := modelSet out obj (.objKey k) v
  get_string out obj pl := modelGet out obj (.str pl)
  set_string _env out obj pl v := modelSet out obj (.str pl) v
  get_own_property_names out obj := modelOwnNames out obj

/-- The model key a `PropertyKey` addresses, given the text-lowering step. -/
def keyOf (lower : String → Lowered) : PropertyKey → MKey
  | .index i => .idx i
  | .handle h => .objKey h
  | .text s => .str (lower s)

/-- The engine state after `modelSet` overwrites a writable own slot. -/
def writeState (st : EngineState) (obj : RawLocal) (rec : ObjRecord)
    (k : MKey) (slot : PropSlot) (v : RawLocal) : EngineState :=
  let rec' : ObjRecord := { rec with props := setP rec.props k { slot with value := v } }
  { st with heap := updateA st.heap obj rec' }

end Model

/-- The methods declared by the legacy-runtime `Object` trait, in source
order. -/
def legacyObjectMethods : List String :=
  ["get", "get_property_attributes", "get_property_names",
   "get_own_property_names", "set"]

/-- The methods declared by the napi-runtime `Object` trait, in source
order. -/
def napiObjectMethods : List String :=
  ["get", "get_own_property_names", "set"]

/-- A concrete text-lowering step for witnesses: pointer `0`, byte length of
the text. -/
def lower0 : String → Lowered := fun s => (0, s.length)

/-- A legacy native surface on which every fallible entry point reports ABI
failure while scribbling garbage into its out-slot; used to witness that the
wrappers never expose an out-slot after a failed call. -/
def failLegacy : Legacy.NeonRuntime Unit where
  get_index _ _ _ _ := ⟨(), 99, false⟩
  set_index _ _ _ _ _ := ⟨(), true, false⟩
  get _ _ _ _ := ⟨(), 99, false⟩
  set _ _ _ _ _ := ⟨(), true, false⟩
  get_string _ _ _ _ := ⟨(), 99, false⟩
  set_string _ _ _ _ _ := ⟨(), true, false⟩
  get_property_names _ _ _ := ⟨(), 99, false⟩
  get_own_property_names _ _ _ := ⟨(), 99, false⟩
  get_property_attributes _ _ _ := 0

/-- The napi analogue of `failLegacy`. -/
def failNapi : Napi.NeonRuntime Unit where
  get_index _ _ _ _ := ⟨(), 99, false⟩
  set_index _ _ _ _ _ := ⟨(), true, false⟩
  get _ _ _ _ := ⟨(), 99, false⟩
  set _ _ _ _ _ := ⟨(), true, false⟩
  get_string _ _ _ _ := ⟨(), 99, false⟩
  set_string _ _ _ _ _ _ := ⟨(), true, false⟩
  get_own_property_names _ _ _ := ⟨(), 99, false⟩

/-- A napi native surface whose `set_string` out-flag depends on the
environment token it receives; used to witness that the token extracted from
the context genuinely reaches the native text-key set call. -/
def envProbe : Napi.NeonRuntime Unit where
  get_index _ _ _ _ := ⟨(), 0, true⟩
  set_index _ _ _ _ _ := ⟨(), true, true⟩
  get _ _ _ _ := ⟨(), 0, true⟩
  set _ _ _ _ _ := ⟨(), true, true⟩
  get_string _ _ _ _ := ⟨(), 0, true⟩
  set_string env _ _ _ _ _ := ⟨(), decide (env = 1), true⟩
  get_own_property_names _ _ _ := ⟨(), 0, true⟩

/-- A sample property slot for witnesses: value `10`, fully
writable/enumerable/configurable (the spec's `{a: 1}` scenario shape). -/
def sampleSlot : Model.PropSlot := ⟨10, true, true, true⟩

/-- A sample object record owning the single text property lowered from
`"a"` by `lower0`. -/
def sampleRec : Model.ObjRecord := ⟨[(Model.MKey.str (0, 1), sampleSlot)], none⟩

/-- A sample engine state: object `1` is `sampleRec`; no arrays allocated. -/
def sampleState : Model.EngineState := ⟨[(1, sampleRec)], [], 50⟩

/-- A sample prototype-carrying record: object with one enumerable own
property, prototype `2`. -/
def protoRec : Model.ObjRecord :=
  ⟨[(Model.MKey.str (0, 1), sampleSlot)], some 2⟩

/-- The prototype object: one enumerable and one non-enumerable property. -/
def protoParent : Model.ObjRecord :=
  ⟨[(Model.MKey.idx 3, ⟨7, true, true, true⟩),
    (Model.MKey.idx 4, ⟨8, true, false, true⟩)], none⟩

/-- A sample engine state with a two-object prototype chain. -/
def chainState : Model.EngineState :=
  ⟨[(1, protoRec), (2, protoParent)], [], 50⟩

theorem lookupA_updateA_self {β : Type} (l : List (Nat × β)) (k : Nat) (v : β) :
    Model.lookupA (Model.updateA l k v) k = some v := by
  induction l with
  | nil => simp [Model.updateA, Model.lookupA]
  | cons p rest ih =>
    by_cases h : p.1 = k
    · simp [Model.updateA, Model.lookupA, h]
    · simp [Model.updateA, Model.lookupA, h, ih]

theorem lookupP_setP_self (ps : List (Model.MKey × Model.PropSlot))
    (k : Model.MKey) (s : Model.PropSlot) :
    Model.lookupP (Model.setP ps k s) k = some s := by
  induction ps with
  | nil => simp [Model.setP, Model.lookupP]
  | cons p rest ih =>
    by_cases h : p.1 = k
    · simp [Model.setP, Model.lookupP, h]
    · simp [Model.setP, Model.lookupP, h, ih]

theorem lookupA_length_pos {β : Type} {l : List (Nat × β)} {k : Nat} {v : β}
    (h : Model.lookupA l k = some v) : ∃ n, l.length = n + 1 := by
  cases l with
  | nil => simp [Model.lookupA] at h
  | cons p rest => exact ⟨rest.length, rfl⟩

theorem modelSet_writable {st : Model.EngineState} {obj : RawLocal}
    {rec : Model.ObjRecord} {mk : Model.MKey} {slot : Model.PropSlot}
    (v : RawLocal) (out0 : Bool)
    (h1 : Model.lookupA st.heap obj = some rec)
    (h2 : Model.lookupP rec.props mk = some slot)
    (h3 : slot.writable = true) :
    Model.modelSet out0 obj mk v st =
      ⟨Model.writeState st obj rec mk slot v, true, true⟩ := by
  simp [Model.modelSet, Model.writeState, h1, h2, h3]

theorem modelGet_found {st : Model.EngineState} {obj : RawLocal}
    {rec : Model.ObjRecord} {mk : Model.MKey} {slot : Model.PropSlot}
    (out0 : RawLocal)
    (h1 : Model.lookupA st.heap obj = some rec)
    (h2 : Model.lookupP rec.props mk = some slot) :
    Model.modelGet out0 obj mk st = ⟨st, slot.value, true⟩ := by
  obtain ⟨n, hn⟩ := lookupA_length_pos h1
  simp [Model.modelGet, h1, hn, Model.protoLookup, h2]

theorem legacy_get_from_model (lower : String → Lowered) (k : PropertyKey)
    (out obj : RawLocal) (st : Model.EngineState) :
    Legacy.PropertyKey.get_from Model.legacyRuntime lower k out obj st =
      Model.modelGet out obj (Model.keyOf lower k) st := by
  cases k <;> rfl

theorem legacy_set_from_model (lower : String → Lowered) (k : PropertyKey)
    (out : Bool) (obj v : RawLocal) (st : Model.EngineState) :
    Legacy.PropertyKey.set_from Model.legacyRuntime lower k out obj v st =
      Model.modelSet out obj (Model.keyOf lower k) v st := by
  cases k <;> rfl

theorem napi_get_from_model (lower : String → Lowered) (k : PropertyKey)
    (cx : Napi.Ctx) (out obj : RawLocal) (st : Model.EngineState) :
    Napi.PropertyKey.get_from Model.napiRuntime lower k cx out obj st =
      Model.modelGet out obj (Model.keyOf lower k) st := by
  cases k <;> rfl

theorem napi_set_from_model (lower : String → Lowered) (k : PropertyKey)
    (cx : Napi.Ctx) (out : Bool) (obj v : RawLocal) (st : Model.EngineState) :
    Napi.PropertyKey.set_from Model.napiRuntime lower k cx out obj v st =
      Model.modelSet out obj (Model.keyOf lower k) v st := by
  cases k <;> rfl

theorem ownEnumNames_subset_allEnumNames {st : Model.EngineState}
    {obj : RawLocal} {rec : Model.ObjRecord}
    (h : Model.lookupA st.heap obj = some rec) :
    Model.ownEnumNames rec ⊆ Model.allEnumNames st.heap.length st obj := by
  obtain ⟨n, hn⟩ := lookupA_length_pos h
  rw [hn]
  simp only [Model.allEnumNames, h]
  exact List.subset_append_left _ _

theorem neonResult_dichotomy {α : Type} (e : NeonResult α) :
    e = Except.error Throw.mk ∨ ∃ a, e = Except.ok a := by
  cases e with
  | error t => cases t; exact Or.inl rfl
  | ok a => exact Or.inr ⟨a, rfl⟩

/-- Claim C1: in both backends, `Object::set` returns `Ok(flag)` exactly when
the native set call reports ABI success, where `flag` is the bool
out-parameter (a native-successful but refused write is `Ok(false)`, never an
error), and returns `Err(Throw)` exactly when the native set call reports
failure. -/
theorem set_result_mirrors_native_abi :
    ∀ {σ : Type} (rtL : Legacy.NeonRuntime σ) (rtN : Napi.NeonRuntime σ)
      (lower : String → Lowered) (cxL : Legacy.Ctx) (cxN : Napi.Ctx)
      (self : RawLocal) (k : PropertyKey) (v : RawLocal) (st : σ),
      (((Legacy.Object.set rtL lower cxL self k v st).2 = Except.error Throw.mk ↔
          (Legacy.PropertyKey.set_from rtL lower k false self v st).ok = false) ∧
        ∀ b : Bool,
          (Legacy.Object.set rtL lower cxL self k v st).2 = Except.ok b ↔
            (Legacy.PropertyKey.set_from rtL lower k false self v st).ok = true ∧
            (Legacy.PropertyKey.set_from rtL lower k false self v st).out = b) ∧
      (((Napi.Object.set rtN lower cxN self k v st).2 = Except.error Throw.mk ↔
          (Napi.PropertyKey.set_from rtN lower k cxN false self v st).ok = false) ∧
        ∀ b : Bool,
          (Napi.Object.set rtN lower cxN self k v st).2 = Except.ok b ↔
            (Napi.PropertyKey.set_from rtN lower k cxN false self v st).ok = true ∧
            (Napi.PropertyKey.set_from rtN lower k cxN false self v st).out = b) := by
  intro σ rtL rtN lower cxL cxN self k v st
  refine ⟨⟨?_, ?_⟩, ⟨?_, ?_⟩⟩
  · cases h : (Legacy.PropertyKey.set_from rtL lower k false self v st).ok <;>
      simp [Legacy.Object.set, h]
  · intro b
    cases h : (Legacy.PropertyKey.set_from rtL lower k false self v st).ok <;>
      simp [Legacy.Object.set, h, eq_comm]
  · cases h : (Napi.PropertyKey.set_from rtN lower k cxN false self v st).ok <;>
      simp [Napi.Object.set, h]
  · intro b
    cases h : (Napi.PropertyKey.set_from rtN lower k cxN false self v st).ok <;>
      simp [Napi.Object.set, h, eq_comm]

/-- Claim C2: in both backends, `Object::get` goes through the shared
out-parameter construction helper `build`, fails with `Err(Throw)` exactly
when the native get call reports ABI failure, and on ABI success returns the
reference the native call filled into the out-slot. -/
theorem get_result_mirrors_native_abi :
    ∀ {σ : Type} (rtL : Legacy.NeonRuntime σ) (rtN : Napi.NeonRuntime σ)
      (lower : String → Lowered) (cxL : Legacy.Ctx) (cxN : Napi.Ctx)
      (self : RawLocal) (k : PropertyKey) (st : σ),
      (Legacy.Object.get rtL lower cxL self k st =
          build st 0 (fun out s => Legacy.PropertyKey.get_from rtL lower k out self s)) ∧
      (((Legacy.Object.get rtL lower cxL self k st).2 = Except.error Throw.mk ↔
          (Legacy.PropertyKey.get_from rtL lower k 0 self st).ok = false) ∧
        ∀ r : RawLocal,
          (Legacy.Object.get rtL lower cxL self k st).2 = Except.ok r ↔
            (Legacy.PropertyKey.get_from rtL lower k 0 self st).ok = true ∧
            (Legacy.PropertyKey.get_from rtL lower k 0 self st).out = r) ∧
      (Napi.Object.get rtN lower cxN self k st =
          build st 0 (fun out s => Napi.PropertyKey.get_from rtN lower k cxN out self s)) ∧
      (((Napi.Object.get rtN lower cxN self k st).2 = Except.error Throw.mk ↔
          (Napi.PropertyKey.get_from rtN lower k cxN 0 self st).ok = false) ∧
        ∀ r : RawLocal,
          (Napi.Object.get rtN lower cxN self k st).2 = Except.ok r ↔
            (Napi.PropertyKey.get_from rtN lower k cxN 0 self st).ok = true ∧
            (Napi.PropertyKey.get_from rtN lower k cxN 0 self st).out = r) := by
  intro σ rtL rtN lower cxL cxN self k st
  refine ⟨rfl, ⟨?_, ?_⟩, rfl, ⟨?_, ?_⟩⟩
  · cases h : (Legacy.PropertyKey.get_from rtL lower k 0 self st).ok <;>
      simp [Legacy.Object.get, build, h]
  · intro r
    cases h : (Legacy.PropertyKey.get_from rtL lower k 0 self st).ok <;>
      simp [Legacy.Object.get, build, h, eq_comm]
  · cases h : (Napi.PropertyKey.get_from rtN lower k cxN 0 self st).ok <;>
      simp [Napi.Object.get, build, h]
  · intro r
    cases h : (Napi.PropertyKey.get_from rtN lower k cxN 0 self st).ok <;>
      simp [Napi.Object.get, build, h, eq_comm]

/-- Claim C4: the legacy `Object::get_property_attributes` is infallible — it
returns the native call's raw bitmask wrapped in `JsPropertyAttributes`, with
no `Result` channel and hence no way to produce the pending-exception
sentinel (its return type contains no `Throw`). -/
theorem get_property_attributes_infallible :
    ∀ {σ : Type} (rt : Legacy.NeonRuntime σ) (cx : Legacy.Ctx)
      (self key : RawLocal) (st : σ),
      Legacy.Object.get_property_attributes rt cx self key st =
        JsPropertyAttributes.mk (rt.get_property_attributes self key st) := by
  intro σ rt cx self key st
  rfl

/-- Claim C5: the attribute query and the inherited-property enumeration are
declared only by the legacy backend's `Object` trait; the napi backend's
`Object` trait omits both, declaring exactly `get`, `get_own_property_names`
and `set`. -/
theorem object_capability_surface :
    "get_property_attributes" ∈ legacyObjectMethods ∧
    "get_property_names" ∈ legacyObjectMethods ∧
    "get_property_attributes" ∉ napiObjectMethods ∧
    "get_property_names" ∉ napiObjectMethods ∧
    legacyObjectMethods =
      ["get", "get_property_attributes", "get_property_names",
       "get_own_property_names", "set"] ∧
    napiObjectMethods = ["get", "get_own_property_names", "set"] := by
  refine ⟨?_, ?_, ?_, ?_, rfl, rfl⟩ <;> decide

/-- Claim C3: among all property-key operations of both backends, exactly one
passes an execution-context token into its native call: napi text-key `set`,
whose `set_from` hands `cx.env` to the native `set_string`. Every other
operation (text-key `get` in both backends, every index-key and reference-key
get/set in both backends, and all legacy operations) is invariant under a
change of context, while napi text-key `set` genuinely depends on the token
it extracts. -/
theorem context_token_reaches_only_napi_text_set :
    (∀ {σ : Type} (rt : Legacy.NeonRuntime σ) (lower : String → Lowered)
       (c1 c2 : Legacy.Ctx) (self : RawLocal) (k : PropertyKey)
       (key v : RawLocal) (st : σ),
       Legacy.Object.get rt lower c1 self k st =
         Legacy.Object.get rt lower c2 self k st ∧
       Legacy.Object.set rt lower c1 self k v st =
         Legacy.Object.set rt lower c2 self k v st ∧
       Legacy.Object.get_property_attributes rt c1 self key st =
         Legacy.Object.get_property_attributes rt c2 self key st ∧
       Legacy.Object.get_property_names rt c1 self st =
         Legacy.Object.get_property_names rt c2 self st ∧
       Legacy.Object.get_own_property_names rt c1 self st =
         Legacy.Object.get_own_property_names rt c2 self st) ∧
    (∀ {σ : Type} (rt : Napi.NeonRuntime σ) (lower : String → Lowered)
       (c1 c2 : Napi.Ctx) (self : RawLocal) (k : PropertyKey) (i : Nat)
       (h v : RawLocal) (st : σ),
       Napi.Object.get rt lower c1 self k st =
         Napi.Object.get rt lower c2 self k st ∧
       Napi.Object.set rt lower c1 self (.index i) v st =
         Napi.Object.set rt lower c2 self (.index i) v st ∧
       Napi.Object.set rt lower c1 self (.handle h) v st =
         Napi.Object.set rt lower c2 self (.handle h) v st ∧
       Napi.Object.get_own_property_names rt c1 self st =
         Napi.Object.get_own_property_names rt c2 self st) ∧
    (∀ {σ : Type} (rt : Napi.NeonRuntime σ) (lower : String → Lowered)
       (cx : Napi.Ctx) (s : String) (out : Bool) (obj v : RawLocal) (st : σ),
       Napi.PropertyKey.set_from rt lower (.text s) cx out obj v st =
         rt.set_string cx.env out obj (lower s) v st) ∧
    (∃ c1 c2 : Napi.Ctx,
       Napi.Object.set envProbe lower0 c1 0 (.text "a") 0 () ≠
         Napi.Object.set envProbe lower0 c2 0 (.text "a") 0 ()) := by
  refine ⟨?_, ?_, ?_, ⟨⟨1⟩, ⟨0⟩, ?_⟩⟩
  · intro σ rt lower c1 c2 self k key v st
    exact ⟨rfl, rfl, rfl, rfl, rfl⟩
  · intro σ rt lower c1 c2 self k i h v st
    exact ⟨rfl, rfl, rfl, rfl⟩
  · intro σ rt lower cx s out obj v st
    rfl
  · intro hcontra
    have h1 : Napi.Object.set envProbe lower0 ⟨1⟩ 0 (.text "a") 0 () =
        ((), Except.ok true) := rfl
    have h2 : Napi.Object.set envProbe lower0 ⟨0⟩ 0 (.text "a") 0 () =
        ((), Except.ok false) := rfl
    rw [h1, h2] at hcontra
    simp at hcontra

/-- Claim C10: the context argument never influences any operation's
behaviour except napi text-key `set`: two runs of any legacy operation under
distinct contexts coincide (the parameter is never read), and likewise for
every napi operation other than `set` with a text key. -/
theorem context_independence_two_runs :
    ∀ {σL σN : Type} (rtL : Legacy.NeonRuntime σL) (rtN : Napi.NeonRuntime σN)
      (lower : String → Lowered) (c1 c2 : Legacy.Ctx) (d1 d2 : Napi.Ctx)
      (self : RawLocal) (k : PropertyKey) (i : Nat) (h key v : RawLocal)
      (stL : σL) (stN : σN),
      (Legacy.Object.get rtL lower c1 self k stL =
         Legacy.Object.get rtL lower c2 self k stL) ∧
      (Legacy.Object.set rtL lower c1 self k v stL =
         Legacy.Object.set rtL lower c2 self k v stL) ∧
      (Legacy.Object.get_property_attributes rtL c1 self key stL =
         Legacy.Object.get_property_attributes rtL c2 self key stL) ∧
      (Legacy.Object.get_property_names rtL c1 self stL =
         Legacy.Object.get_property_names rtL c2 self stL) ∧
      (Legacy.Object.get_own_property_names rtL c1 self stL =
         Legacy.Object.get_own_property_names rtL c2 self stL) ∧
      (Napi.Object.get rtN lower d1 self k stN =
         Napi.Object.get rtN lower d2 self k stN) ∧
      (Napi.Object.set rtN lower d1 self (.index i) v stN =
         Napi.Object.set rtN lower d2 self (.index i) v stN) ∧
      (Napi.Object.set rtN lower d1 self (.handle h) v stN =
         Napi.Object.set rtN lower d2 self (.handle h) v stN) ∧
      (Napi.Object.get_own_property_names rtN d1 self stN =
         Napi.Object.get_own_property_names rtN d2 self stN) := by
  intro σL σN rtL rtN lower c1 c2 d1 d2 self k i h key v stL stN
  exact ⟨rfl, rfl, rfl, rfl, rfl, rfl, rfl, rfl, rfl⟩

/-- Claim C6: every fallible operation of the core (get, set,
get_property_names, get_own_property_names, in both backends) has exactly one
error kind: the payload-free sentinel `Throw` (a type with a single
inhabitant), and every error outcome is literally that sentinel — never a
wrapped or augmented value. -/
theorem single_error_kind :
    (∀ t u : Throw, t = u) ∧
    (∀ {σ : Type} (rtL : Legacy.NeonRuntime σ) (rtN : Napi.NeonRuntime σ)
       (lower : String → Lowered) (cxL : Legacy.Ctx) (cxN : Napi.Ctx)
       (self : RawLocal) (k : PropertyKey) (v : RawLocal) (st : σ),
       ((Legacy.Object.get rtL lower cxL self k st).2 = Except.error Throw.mk ∨
         ∃ r, (Legacy.Object.get rtL lower cxL self k st).2 = Except.ok r) ∧
       ((Legacy.Object.set rtL lower cxL self k v st).2 = Except.error Throw.mk ∨
         ∃ b, (Legacy.Object.set rtL lower cxL self k v st).2 = Except.ok b) ∧
       ((Legacy.Object.get_property_names rtL cxL self st).2 = Except.error Throw.mk ∨
         ∃ r, (Legacy.Object.get_property_names rtL cxL self st).2 = Except.ok r) ∧
       ((Legacy.Object.get_own_property_names rtL cxL self st).2 = Except.error Throw.mk ∨
         ∃ r, (Legacy.Object.get_own_property_names rtL cxL self st).2 = Except.ok r) ∧
       ((Napi.Object.get rtN lower cxN self k st).2 = Except.error Throw.mk ∨
         ∃ r, (Napi.Object.get rtN lower cxN self k st).2 = Except.ok r) ∧
       ((Napi.Object.set rtN lower cxN self k v st).2 = Except.error Throw.mk ∨
         ∃ b, (Napi.Object.set rtN lower cxN self k v st).2 = Except.ok b) ∧
       ((Napi.Object.get_own_property_names rtN cxN self st).2 = Except.error Throw.mk ∨
         ∃ r, (Napi.Object.get_own_property_names rtN cxN self st).2 = Except.ok r)) := by
  constructor
  · intro t u
    cases t
    cases u
    rfl
  · intro σ rtL rtN lower cxL cxN self k v st
    exact ⟨neonResult_dichotomy _, neonResult_dichotomy _, neonResult_dichotomy _,
           neonResult_dichotomy _, neonResult_dichotomy _, neonResult_dichotomy _,
           neonResult_dichotomy _⟩

/-- Claim C7: every operation checks the native ABI boolean before trusting
the out-parameter: whenever the native call reports `false`, the operation
returns the advanced state paired with `Err(Throw)` — the out-slot contents
are discarded and never reach the caller. -/
theorem native_failure_yields_sentinel :
    ∀ {σ : Type} (rtL : Legacy.NeonRuntime σ) (rtN : Napi.NeonRuntime σ)
      (lower : String → Lowered) (cxL : Legacy.Ctx) (cxN : Napi.Ctx)
      (self : RawLocal) (k : PropertyKey) (v : RawLocal) (st : σ),
      ((Legacy.PropertyKey.set_from rtL lower k false self v st).ok = false →
        Legacy.Object.set rtL lower cxL self k v st =
          ((Legacy.PropertyKey.set_from rtL lower k false self v st).state,
            Except.error Throw.mk)) ∧
      ((Legacy.PropertyKey.get_from rtL lower k 0 self st).ok = false →
        Legacy.Object.get rtL lower cxL self k st =
          ((Legacy.PropertyKey.get_from rtL lower k 0 self st).state,
            Except.error Throw.mk)) ∧
      ((rtL.get_property_names 0 self st).ok = false →
        Legacy.Object.get_property_names rtL cxL self st =
          ((rtL.get_property_names 0 self st).state, Except.error Throw.mk)) ∧
      ((rtL.get_own_property_names 0 self st).ok = false →
        Legacy.Object.get_own_property_names rtL cxL self st =
          ((rtL.get_own_property_names 0 self st).state, Except.error Throw.mk)) ∧
      ((Napi.PropertyKey.set_from rtN lower k cxN false self v st).ok = false →
        Napi.Object.set rtN lower cxN self k v st =
          ((Napi.PropertyKey.set_from rtN lower k cxN false self v st).state,
            Except.error Throw.mk)) ∧
      ((Napi.PropertyKey.get_from rtN lower k cxN 0 self st).ok = false →
        Napi.Object.get rtN lower cxN self k st =
          ((Napi.PropertyKey.get_from rtN lower k cxN 0 self st).state,
            Except.error Throw.mk)) ∧
      ((rtN.get_own_property_names 0 self st).ok = false →
        Napi.Object.get_own_property_names rtN cxN self st =
          ((rtN.get_own_property_names 0 self st).state, Except.error Throw.mk)) := by
  intro σ rtL rtN lower cxL cxN self k v st
  refine ⟨?_, ?_, ?_, ?_, ?_, ?_, ?_⟩
  · intro h
    simp [Legacy.Object.set, h]
  · intro h
    simp [Legacy.Object.get, build, h]
  · intro h
    simp [Legacy.Object.get_property_names, build, h]
  · intro h
    simp [Legacy.Object.get_own_property_names, build, h]
  · intro h
    simp [Napi.Object.set, h]
  · intro h
    simp [Napi.Object.get, build, h]
  · intro h
    simp [Napi.Object.get_own_property_names, build, h]

/-- Witness for C7: on a native surface whose every call fails while
scribbling garbage in its out-slot, `set` and `get` return the
pending-exception sentinel and expose nothing. -/
theorem native_failure_yields_sentinel_witness :
    (Legacy.PropertyKey.set_from failLegacy lower0 (.index 2) false 5 7 ()).ok = false ∧
    Legacy.Object.set failLegacy lower0 0 5 (.index 2) 7 () =
      ((), Except.error Throw.mk) ∧
    Napi.Object.get failNapi lower0 ⟨0⟩ 5 (.index 2) () =
      ((), Except.error Throw.mk) :=
  ⟨rfl,
   (native_failure_yields_sentinel failLegacy failNapi lower0 0 ⟨0⟩ 5
       (.index 2) 7 ()).1 rfl,
   (native_failure_yields_sentinel failLegacy failNapi lower0 0 ⟨0⟩ 5
       (.index 2) 7 ()).2.2.2.2.2.1 rfl⟩

/-- Claim C8: on the reference engine semantics, for every object, key and
value whose addressed own property exists and is writable (no getter/setter
traps exist in the model), `set` returns `Ok(true)` and a subsequent `get`
with the same key returns exactly the written value — in both backends. -/
theorem set_then_get_roundtrip :
    ∀ (lower : String → Lowered) (cxL : Legacy.Ctx) (cxN : Napi.Ctx)
      (obj v : RawLocal) (k : PropertyKey) (st : Model.EngineState)
      (rec : Model.ObjRecord) (slot : Model.PropSlot),
      Model.lookupA st.heap obj = some rec →
      Model.lookupP rec.props (Model.keyOf lower k) = some slot →
      slot.writable = true →
      ((Legacy.Object.set Model.legacyRuntime lower cxL obj k v st).2 =
          Except.ok true ∧
        (Legacy.Object.get Model.legacyRuntime lower cxL obj k
            (Legacy.Object.set Model.legacyRuntime lower cxL obj k v st).1).2 =
          Except.ok v) ∧
      ((Napi.Object.set Model.napiRuntime lower cxN obj k v st).2 =
          Except.ok true ∧
        (Napi.Object.get Model.napiRuntime lower cxN obj k
            (Napi.Object.set Model.napiRuntime lower cxN obj k v st).1).2 =
          Except.ok v) := by
  intro lower cxL cxN obj v k st rec slot h1 h2 h3
  have hset := modelSet_writable v false h1 h2 h3
  have hget : Model.modelGet 0 obj (Model.keyOf lower k)
      (Model.writeState st obj rec (Model.keyOf lower k) slot v) =
      ⟨Model.writeState st obj rec (Model.keyOf lower k) slot v, v, true⟩ :=
    modelGet_found 0 (lookupA_updateA_self st.heap obj _)
      (lookupP_setP_self rec.props _ _)
  have hsetL : Legacy.Object.set Model.legacyRuntime lower cxL obj k v st =
      (Model.writeState st obj rec (Model.keyOf lower k) slot v,
        Except.ok true) := by
    simp [Legacy.Object.set, legacy_set_from_model, hset]
  have hsetN : Napi.Object.set Model.napiRuntime lower cxN obj k v st =
      (Model.writeState st obj rec (Model.keyOf lower k) slot v,
        Except.ok true) := by
    simp [Napi.Object.set, napi_set_from_model, hset]
  have hgetL : (Legacy.Object.get Model.legacyRuntime lower cxL obj k
      (Model.writeState st obj rec (Model.keyOf lower k) slot v)).2 =
      Except.ok v := by
    simp [Legacy.Object.get, build, legacy_get_from_model, hget]
  have hgetN : (Napi.Object.get Model.napiRuntime lower cxN obj k
      (Model.writeState st obj rec (Model.keyOf lower k) slot v)).2 =
      Except.ok v := by
    simp [Napi.Object.get, build, napi_get_from_model, hget]
  refine ⟨⟨?_, ?_⟩, ⟨?_, ?_⟩⟩
  · rw [hsetL]
  · rw [hsetL]
    exact hgetL
  · rw [hsetN]
  · rw [hsetN]
    exact hgetN

/-- Witness for C8: the spec's `{a: 1}` scenario — object `1` owns the
writable text property `"a"` with value `10`; `set(key="a", value=2)` yields
`Ok(true)` and the subsequent `get(key="a")` yields `2`. -/
theorem set_then_get_roundtrip_witness :
    Model.lookupA sampleState.heap 1 = some sampleRec ∧
    Model.lookupP sampleRec.props (Model.keyOf lower0 (.text "a")) =
      some sampleSlot ∧
    sampleSlot.writable = true ∧
    (Legacy.Object.set Model.legacyRuntime lower0 0 1 (.text "a") 2
        sampleState).2 = Except.ok true ∧
    (Legacy.Object.get Model.legacyRuntime lower0 0 1 (.text "a")
        (Legacy.Object.set Model.legacyRuntime lower0 0 1 (.text "a") 2
          sampleState).1).2 = Except.ok 2 :=
  ⟨by decide, by decide, rfl,
   (set_then_get_roundtrip lower0 0 ⟨0⟩ 1 2 (.text "a") sampleState sampleRec
       sampleSlot (by decide) (by decide) rfl).1.1,
   (set_then_get_roundtrip lower0 0 ⟨0⟩ 1 2 (.text "a") sampleState sampleRec
       sampleSlot (by decide) (by decide) rfl).1.2⟩

/-- Claim C9: on the reference engine semantics, whenever both enumeration
operations are available (the legacy backend), the key list returned by
`get_own_property_names` is a subset of the key list returned by
`get_property_names` on the same object. -/
theorem own_names_subset_all_names :
    ∀ (cx : Legacy.Ctx) (obj : RawLocal) (st : Model.EngineState)
      (rec : Model.ObjRecord),
      Model.lookupA st.heap obj = some rec →
      ∃ ns1 ns2 : List Model.MKey,
        (Legacy.Object.get_own_property_names Model.legacyRuntime cx obj st).2 =
          Except.ok st.next ∧
        Model.lookupA
          (Legacy.Object.get_own_property_names Model.legacyRuntime cx obj
            st).1.arrays st.next = some ns1 ∧
        (Legacy.Object.get_property_names Model.legacyRuntime cx obj st).2 =
          Except.ok st.next ∧
        Model.lookupA
          (Legacy.Object.get_property_names Model.legacyRuntime cx obj
            st).1.arrays st.next = some ns2 ∧
        ns1 ⊆ ns2 := by
  intro cx obj st rec h
  refine ⟨Model.ownEnumNames rec, Model.allEnumNames st.heap.length st obj,
    ?_, ?_, ?_, ?_, ?_⟩
  · simp [Legacy.Object.get_own_property_names, build, Model.legacyRuntime,
      Model.modelOwnNames, h]
  · simp [Legacy.Object.get_own_property_names, build, Model.legacyRuntime,
      Model.modelOwnNames, h, Model.lookupA]
  · simp [Legacy.Object.get_property_names, build, Model.legacyRuntime,
      Model.modelAllNames, h]
  · simp [Legacy.Object.get_property_names, build, Model.legacyRuntime,
      Model.modelAllNames, h, Model.lookupA]
  · exact ownEnumNames_subset_allEnumNames h

/-- Witness for C9: on a two-object prototype chain, the own enumerable key
of object `1` is contained in the enumeration of its own and inherited
enumerable keys. -/
theorem own_names_subset_all_names_witness :
    Model.lookupA chainState.heap 1 = some protoRec ∧
    ∃ ns1 ns2 : List Model.MKey,
      (Legacy.Object.get_own_property_names Model.legacyRuntime 0 1
          chainState).2 = Except.ok 50 ∧
      Model.lookupA
        (Legacy.Object.get_own_property_names Model.legacyRuntime 0 1
          chainState).1.arrays 50 = some ns1 ∧
      (Legacy.Object.get_property_names Model.legacyRuntime 0 1
          chainState).2 = Except.ok 50 ∧
      Model.lookupA
        (Legacy.Object.get_property_names Model.legacyRuntime 0 1
          chainState).1.arrays 50 = some ns2 ∧
      ns1 ⊆ ns2 :=
  ⟨rfl, own_names_subset_all_names 0 1 chainState protoRec rfl⟩

end Neon
